import Mathlib

/-!
Verification development for the NervusDB engine specification.

The repository ships only black-box tests of the engine's Python binding;
the engine itself is not part of the visible sources.  Every definition
below is therefore a shallow embedding modelled from the specification
(spec.md), faithful to its words: the data model (nodes, relationships,
property values, vectors), the transaction state machine, MERGE semantics,
ORDER BY / SKIP / LIMIT pipeline stages, the vector KNN search, the
persistence round-trip, the error taxonomy, and the eager/lazy query
equivalence.
-/

namespace NervusDB

/-- Modelled from the spec: the engine's Property Value is a tagged union
over null, boolean, 64-bit integer, string (floats, lists and maps are not
needed by the claims settled here; integers are unbounded in the model,
matching the exact round-trip requirement up to 2^53). -/
inductive Value where
  | null
  | bool (b : Bool)
  | int (i : Int)
  | str (s : String)
deriving Repr, DecidableEq

/-- Modelled from the spec: a node has a unique integer identifier,
a set of label strings and a property mapping. -/
structure Node where
  id : Nat
  labels : List String
  props : List (String × Value)
deriving Repr, DecidableEq

/-- Modelled from the spec: a relationship has a unique identifier, a single
type name, start and end node ids, and a property mapping. -/
structure Rel where
  id : Nat
  relType : String
  src : Nat
  dst : Nat
  props : List (String × Value)
deriving Repr, DecidableEq

/-- Modelled from the spec: the logical graph state held by the storage
engine — an id allocator, the nodes, the relationships, and the vector
index (an ordered sequence of rationals per node id; the engine stores
floats, modelled as rationals to keep distances exact). -/
structure Graph where
  nextId : Nat
  nodes : List Node
  rels : List Rel
  vectors : List (Nat × List Rat)
deriving Repr, DecidableEq

/-- The empty graph of a freshly created database. -/
def emptyGraph : Graph := ⟨0, [], [], []⟩

/-- Modelled from the spec: property lookup in a property mapping
(first binding for the key wins; keys are invariantly duplicate-free). -/
def propLookup : List (String × Value) → String → Option Value
  | [], _ => none
  | (k, v) :: rest, key => if k = key then some v else propLookup rest key

/-- Modelled from the spec: reading a property of a node; an absent
property reads as null. -/
def getProp (n : Node) (key : String) : Value :=
  (propLookup n.props key).getD Value.null

/-- Modelled from the spec: a node pattern `(:L1:L2 {k1: v1, ...})` matches
a node when every pattern label is among the node's labels and every
pattern property is present on the node with the stated value. -/
def nodeMatches (L : List String) (P : List (String × Value)) (n : Node) : Bool :=
  L.all (fun l => n.labels.any (fun x => x = l)) &&
    P.all (fun kv => propLookup n.props kv.1 = some kv.2)

/-- Modelled from the spec: the nodes of the graph matching a node
pattern (label/property scan). -/
def matchNodes (g : Graph) (L : List String) (P : List (String × Value)) : List Node :=
  g.nodes.filter (nodeMatches L P)

/-- Modelled from the spec: node creation allocates a fresh id
(never reused) and appends the node; returns the new graph and the id. -/
def createNode (g : Graph) (L : List String) (P : List (String × Value)) : Graph × Nat :=
  ({ g with nextId := g.nextId + 1, nodes := g.nodes ++ [⟨g.nextId, L, P⟩] }, g.nextId)

/-- Modelled from the spec: a relationship pattern `(a)-[:T]->(b)` with
bound endpoints matches a relationship by type and endpoint ids. -/
def relMatchesPat (t : String) (a b : Nat) (r : Rel) : Bool :=
  r.relType = t && r.src = a && r.dst = b

/-- Modelled from the spec: the relationships matching a bound
relationship pattern. -/
def matchRels (g : Graph) (t : String) (a b : Nat) : List Rel :=
  g.rels.filter (relMatchesPat t a b)

/-- Modelled from the spec: relationship creation between existing
endpoints, with a fresh id. -/
def createRel (g : Graph) (t : String) (a b : Nat) : Graph × Nat :=
  ({ g with nextId := g.nextId + 1, rels := g.rels ++ [⟨g.nextId, t, a, b, []⟩] }, g.nextId)

/-- Modelled from the spec: the error taxonomy's four kinds (the engine's
SyntaxError, ExecutionError, StorageError, CompatibilityError). -/
inductive ErrKind where
  | synErr
  | execErr
  | storErr
  | compatErr
deriving Repr, DecidableEq

/-- Modelled from the spec: an engine error is one of the four kinds plus
a human-readable message; all errors derive from the one base kind
(NervusError), represented by this single type. -/
structure NervusError where
  kind : ErrKind
  msg : String
deriving Repr, DecidableEq

/-- Decidable equality of query outcomes, used to evaluate the model on
concrete inputs. -/
instance {e a : Type} [DecidableEq e] [DecidableEq a] : DecidableEq (Except e a) := fun x y =>
  match x, y with
  | .ok u, .ok v =>
    if h : u = v then isTrue (by rw [h]) else isFalse (by intro hh; cases hh; exact h rfl)
  | .ok _, .error _ => isFalse (by intro hh; cases hh)
  | .error _, .ok _ => isFalse (by intro hh; cases hh)
  | .error u, .error v =>
    if h : u = v then isTrue (by rw [h]) else isFalse (by intro hh; cases hh; exact h rfl)

/-- Modelled from the spec: a database handle — open/closed flag plus the
committed graph state. -/
structure Db where
  isOpen : Bool
  graph : Graph
deriving Repr, DecidableEq

/-- Modelled from the spec: the transaction state machine
`Active → Committed` or `Active → RolledBack` (terminal). -/
inductive TxnStatus where
  | active
  | committed
  | rolledBack
deriving Repr, DecidableEq

/-- Modelled from the spec: a write transaction is an isolated view of the
graph with staged mutations, live from begin_write to commit/rollback. -/
structure WriteTxn where
  status : TxnStatus
  staged : Graph
deriving Repr, DecidableEq

/-- Modelled from the spec: begin_write opens a write transaction whose
staged view starts from the committed graph; fails on a closed handle. -/
def beginWrite (db : Db) : Except NervusError WriteTxn :=
  if db.isOpen then .ok ⟨.active, db.graph⟩
  else .error ⟨.storErr, "database is closed"⟩

/-- Modelled from the spec: staging a CREATE through a transaction mutates
only the staged view; on a finished transaction it fails with the
"already finished" condition. -/
def txnCreateNode (t : WriteTxn) (L : List String) (P : List (String × Value)) :
    Except NervusError WriteTxn :=
  if t.status = .active then .ok { t with staged := (createNode t.staged L P).1 }
  else .error ⟨.execErr, "transaction already finished"⟩

/-- Modelled from the spec: commit publishes the staged view as the new
committed graph; on a non-Active transaction it fails with the
"already finished" condition. -/
def commitTxn (db : Db) (t : WriteTxn) : Except NervusError (Db × WriteTxn) :=
  if t.status = .active then
    .ok ({ db with graph := t.staged }, { t with status := .committed })
  else .error ⟨.execErr, "transaction already finished"⟩

/-- Modelled from the spec: rollback discards all staged mutations with no
observable effect on the committed graph; on a non-Active transaction it
fails with the "already finished" condition. -/
def rollbackTxn (db : Db) (t : WriteTxn) : Except NervusError (Db × WriteTxn) :=
  if t.status = .active then .ok (db, { t with status := .rolledBack })
  else .error ⟨.execErr, "transaction already finished"⟩

/-- Modelled from the spec: closing the database handle; idempotent, a
second close after a successful close succeeds silently. -/
def closeDb (db : Db) : Db :=
  { db with isOpen := false }

/-- Modelled from the spec: a read query in the fragment the claims need —
a node pattern scan returning one row per matching node (MATCH (n:L {.. })
RETURN n), each row being the node's property mapping. -/
structure MatchQuery where
  labels : List String
  props : List (String × Value)
deriving Repr, DecidableEq

/-- A result row: a mapping from output column name to value, here the
matched node's property mapping. -/
abbrev Row := List (String × Value)

/-- Modelled from the spec: eager query evaluation; any operation issued
after close fails with the storage-closed condition. -/
def runQuery (db : Db) (q : MatchQuery) : Except NervusError (List Row) :=
  if db.isOpen then .ok ((matchNodes db.graph q.labels q.props).map Node.props)
  else .error ⟨.storErr, "database is closed"⟩

/-- Modelled from the spec: MERGE on a node pattern — match the full
pattern (labels plus properties) against the current view; if a match
exists do nothing (ON MATCH), otherwise create the pattern (ON CREATE). -/
def mergeNode (g : Graph) (L : List String) (P : List (String × Value)) : Graph :=
  if (matchNodes g L P).isEmpty then (createNode g L P).1 else g

/-- Modelled from the spec: MERGE on a relationship pattern with bound
endpoints — match by type and endpoints; create only when no match. -/
def mergeRel (g : Graph) (t : String) (a b : Nat) : Graph :=
  if (matchRels g t a b).isEmpty then (createRel g t a b).1 else g

/-- Modelled from the spec: the row ordering relation used by ORDER BY
ascending on an integer sort key. -/
def keyLE (key : α → Int) (a b : α) : Prop := key a ≤ key b

/-- Modelled from the spec: the row ordering relation used by ORDER BY
descending on an integer sort key. -/
def keyGE (key : α → Int) (a b : α) : Prop := key b ≤ key a

instance (key : α → Int) : DecidableRel (keyLE key) :=
  fun a b => Int.decLe (key a) (key b)

instance (key : α → Int) : DecidableRel (keyGE key) :=
  fun a b => Int.decLe (key b) (key a)

instance (key : α → Int) : IsTotal α (keyLE key) :=
  ⟨fun a b => Int.le_total (key a) (key b)⟩

instance (key : α → Int) : IsTrans α (keyLE key) :=
  ⟨fun _ _ _ h1 h2 => le_trans h1 h2⟩

instance (key : α → Int) : IsTotal α (keyGE key) :=
  ⟨fun a b => (Int.le_total (key b) (key a)).symm.symm⟩

instance (key : α → Int) : IsTrans α (keyGE key) :=
  ⟨fun _ _ _ h1 h2 => le_trans h2 h1⟩

/-- Modelled from the spec: the ORDER BY .. ASC operator — a stable sort of
the projected rows by the declared key. -/
def orderByAsc (key : α → Int) (rows : List α) : List α :=
  List.insertionSort (keyLE key) rows

/-- Modelled from the spec: the ORDER BY .. DESC operator. -/
def orderByDesc (key : α → Int) (rows : List α) : List α :=
  List.insertionSort (keyGE key) rows

/-- Modelled from the spec: the SKIP s LIMIT l pipeline stage over an
already ordered row sequence. -/
def applySkipLimit (s l : Nat) (rows : List α) : List α :=
  (rows.drop s).take l

/-- Modelled from the spec: SKIP/LIMIT apply after ORDER BY — the combined
tail of the pipeline. -/
def orderSkipLimit (key : α → Int) (s l : Nat) (rows : List α) : List α :=
  applySkipLimit s l (orderByAsc key rows)

/-- Modelled from the spec: squared Euclidean distance between two stored
vectors (squared distance induces the same ordering as Euclidean distance
and keeps the model in the rationals). -/
def sqDist (u v : List Rat) : Rat :=
  (List.zipWith (fun a b => (a - b) * (a - b)) u v).sum

/-- Ordering of KNN candidates by ascending distance (second component). -/
def distLE (x y : Nat × Rat) : Prop := x.2 ≤ y.2

instance : DecidableRel distLE := fun x y => Rat.instDecidableLe x.2 y.2

instance : IsTotal (Nat × Rat) distLE := ⟨fun x y => le_total x.2 y.2⟩

instance : IsTrans (Nat × Rat) distLE := ⟨fun _ _ _ h1 h2 => le_trans h1 h2⟩

/-- Modelled from the spec: vector put inside a write transaction. -/
def txnSetVector (t : WriteTxn) (nid : Nat) (v : List Rat) :
    Except NervusError WriteTxn :=
  if t.status = .active then
    .ok { t with staged :=
      { t.staged with vectors := t.staged.vectors.filter (fun p => p.1 ≠ nid) ++ [(nid, v)] } }
  else .error ⟨.execErr, "transaction already finished"⟩

/-- Modelled from the spec: search_vector(query, k) — k-nearest-neighbour
search returning at most k (node id, distance) pairs ordered by ascending
distance. -/
def searchVector (g : Graph) (q : List Rat) (k : Nat) : List (Nat × Rat) :=
  (List.insertionSort distLE (g.vectors.map (fun p => (p.1, sqDist q p.2)))).take k

/-- Modelled from the spec: the concrete vector scenario — three nodes a
(id 1), b (id 2), c (id 3) with stored vectors a = [1,0,0], b = [0,1,0],
c = [0.9,0.1,0]. -/
def gVec : Graph :=
  ⟨4, [⟨1, ["Vec"], [("name", .str "a")]⟩, ⟨2, ["Vec"], [("name", .str "b")]⟩,
       ⟨3, ["Vec"], [("name", .str "c")]⟩], [],
   [(1, [1, 0, 0]), (2, [0, 1, 0]), (3, [9/10, 1/10, 0])]⟩

/-- Modelled from the spec: one record of the persisted layout — the
single addressable store holds node, relationship and vector records. -/
inductive Record where
  | nodeRec (id : Nat) (labels : List String) (props : List (String × Value))
  | relRec (id : Nat) (t : String) (src dst : Nat) (props : List (String × Value))
  | vecRec (id : Nat) (v : List Rat)
deriving Repr, DecidableEq

/-- Modelled from the spec: the durable content of the store at a
filesystem path after a clean close — the id allocator plus all records. -/
abbrev Disk := Nat × List Record

/-- Modelled from the spec: serialising the logical graph into the
persisted record layout on close. -/
def encodeGraph (g : Graph) : Disk :=
  (g.nextId,
    g.nodes.map (fun n => Record.nodeRec n.id n.labels n.props)
      ++ g.rels.map (fun r => Record.relRec r.id r.relType r.src r.dst r.props)
      ++ g.vectors.map (fun p => Record.vecRec p.1 p.2))

/-- Extract the node records from a persisted store. -/
def decodeNodes (rs : List Record) : List Node :=
  rs.filterMap (fun r => match r with
    | .nodeRec i ls ps => some ⟨i, ls, ps⟩
    | _ => none)

/-- Extract the relationship records from a persisted store. -/
def decodeRels (rs : List Record) : List Rel :=
  rs.filterMap (fun r => match r with
    | .relRec i t a b ps => some ⟨i, t, a, b, ps⟩
    | _ => none)

/-- Extract the vector records from a persisted store. -/
def decodeVectors (rs : List Record) : List (Nat × List Rat) :=
  rs.filterMap (fun r => match r with
    | .vecRec i v => some (i, v)
    | _ => none)

/-- Modelled from the spec: loading the logical graph back from the
persisted layout on open. -/
def decodeGraph (d : Disk) : Graph :=
  ⟨d.1, decodeNodes d.2, decodeRels d.2, decodeVectors d.2⟩

/-- Modelled from the spec: a clean close persists the committed graph to
the store at the database path. -/
def shutdown (db : Db) : Disk := encodeGraph db.graph

/-- Modelled from the spec: reopening the same path loads the persisted
store into a fresh open handle. -/
def reopen (d : Disk) : Db := ⟨true, decodeGraph d⟩

/-- Modelled from the spec: the query keywords the frontend recognises as
heads of a well-formed statement; everything else fails to parse. -/
def queryKeywords : List String :=
  ["CREATE", "MATCH", "OPTIONAL MATCH", "MERGE", "RETURN", "UNWIND",
   "WITH", "FOREACH"]

/-- Modelled from the spec: the parsed form records the statement text and
its parse-time read-only/write-capable classification. -/
structure ParsedQuery where
  text : String
  isWrite : Bool
deriving Repr, DecidableEq

/-- Character-list test that the first string starts with the second,
used by the frontend model (kept first-order so concrete queries evaluate
inside the logic). -/
def listStartsWith : List Char → List Char → Bool
  | _, [] => true
  | [], _ :: _ => false
  | c :: cs, d :: ds => c = d && listStartsWith cs ds

/-- Whether a query string starts with the given keyword. -/
def strStartsWith (s k : String) : Bool := listStartsWith s.data k.data

/-- Modelled from the spec: parse-time classification of a statement as
write-capable, used to route it. -/
def classifiesAsWrite (s : String) : Bool :=
  ["CREATE", "MERGE", "FOREACH"].any (fun k => strStartsWith s k)

/-- Modelled from the spec: the query frontend — produce an AST or fail
with a syntax error carrying a non-empty human-readable message (the
engine's parser is absent from the sources; this models its contract). -/
def parseQuery (s : String) : Except NervusError ParsedQuery :=
  if queryKeywords.any (fun k => strStartsWith s k) then
    .ok ⟨s, classifiesAsWrite s⟩
  else
    .error ⟨.synErr, "parse error in query: " ++ s⟩

/-- Modelled from the spec: the classes a caller can catch — the base kind
NervusError, or one specific kind. -/
inductive CatchClass where
  | base
  | only (k : ErrKind)
deriving Repr, DecidableEq

/-- Modelled from the spec: whether a raised error is caught by a catch
class; the base kind catches every engine error. -/
def catches : CatchClass → NervusError → Bool
  | .base, _ => true
  | .only k, e => e.kind = k

/-- Modelled from the spec: the lazy query result — a forward-only stream
over the pipeline's rows, whose total row count is computed eagerly at
construction so that .len is valid before any iteration. -/
structure QueryStream where
  remaining : List Row
  len : Nat
deriving Repr, DecidableEq

/-- Modelled from the spec: query_stream runs the same pipeline as the
eager query and wraps the rows as a stream. -/
def queryStream (db : Db) (q : MatchQuery) : Except NervusError QueryStream :=
  match runQuery db q with
  | .ok rows => .ok ⟨rows, rows.length⟩
  | .error e => .error e

/-- Modelled from the spec: one pull on the stream — either the next row
and the advanced stream, or exhaustion. -/
def streamNext (s : QueryStream) : Option (Row × QueryStream) :=
  match s.remaining with
  | [] => none
  | r :: rs => some (r, ⟨rs, s.len⟩)

/-- Repeated pulls on the stream, bounded by fuel (the stream is finite;
fuel at least the stream length drains it). -/
def pullAll : Nat → QueryStream → List Row
  | 0, _ => []
  | fuel + 1, s =>
    match streamNext s with
    | none => []
    | some (r, s') => r :: pullAll fuel s'

/-- C1: on an open database, staging a write through a write transaction
and then calling rollback() leaves the committed graph state unchanged —
every subsequent query reads the same results as before the transaction —
and a subsequent commit() on that transaction fails with the
"already finished" condition. -/
theorem rollback_leaves_graph_unchanged_commit_fails
    (g : Graph) (L : List String) (P : List (String × Value)) :
    ∃ t t' dbAfter t'',
      beginWrite ⟨true, g⟩ = .ok t ∧
      txnCreateNode t L P = .ok t' ∧
      rollbackTxn ⟨true, g⟩ t' = .ok (dbAfter, t'') ∧
      dbAfter.graph = g ∧
      (∀ q, runQuery dbAfter q = runQuery ⟨true, g⟩ q) ∧
      commitTxn dbAfter t'' = .error ⟨.execErr, "transaction already finished"⟩ := by
  refine ⟨⟨.active, g⟩, ⟨.active, (createNode g L P).1⟩, ⟨true, g⟩,
    ⟨.rolledBack, (createNode g L P).1⟩, ?_, ?_, ?_, rfl, fun _ => rfl, ?_⟩
  · simp [beginWrite]
  · simp [txnCreateNode]
  · simp [rollbackTxn]
  · simp [commitTxn]

/-- C2: close() is idempotent — a second close() after a successful
close() succeeds silently and produces the same closed handle — and every
query issued after close() fails with the storage-closed condition,
reported as a StorageError. -/
theorem close_idempotent_ops_after_close_fail (db : Db) :
    closeDb (closeDb db) = closeDb db ∧
    (closeDb db).isOpen = false ∧
    (∀ q, runQuery (closeDb db) q = .error ⟨.storErr, "database is closed"⟩) := by
  refine ⟨rfl, rfl, fun q => ?_⟩
  simp [runQuery, closeDb]

/-- C10: a node created with a string property whose value is the empty
string is returned by a subsequent match with that property present as the
empty string — a value distinct from null, not absent. -/
theorem empty_string_property_round_trips
    (g : Graph) (L : List String) (k : String) :
    ∃ n : Node,
      n ∈ (createNode g L [(k, Value.str "")]).1.nodes ∧
      n.id = (createNode g L [(k, Value.str "")]).2 ∧
      getProp n k = Value.str "" ∧
      getProp n k ≠ Value.null ∧
      n ∈ matchNodes (createNode g L [(k, Value.str "")]).1 L [(k, Value.str "")] := by
  refine ⟨⟨g.nextId, L, [(k, Value.str "")]⟩, ?_, rfl, ?_, ?_, ?_⟩
  · simp [createNode]
  · simp [getProp, propLookup]
  · simp [getProp, propLookup]
  · have hmem : (⟨g.nextId, L, [(k, Value.str "")]⟩ : Node)
        ∈ (createNode g L [(k, Value.str "")]).1.nodes := by
      simp [createNode]
    have hmatch : nodeMatches L [(k, Value.str "")] ⟨g.nextId, L, [(k, Value.str "")]⟩ = true := by
      simp [nodeMatches, List.all_eq_true, List.any_eq_true, propLookup]
    exact List.mem_filter.mpr ⟨hmem, hmatch⟩

theorem propLookup_eq_of_mem {P : List (String × Value)} {k : String} {v : Value}
    (hnd : (P.map Prod.fst).Nodup) (hmem : (k, v) ∈ P) :
    propLookup P k = some v := by
  induction P with
  | nil => cases hmem
  | cons hd tl ih =>
    obtain ⟨k0, v0⟩ := hd
    simp only [List.map_cons, List.nodup_cons, List.mem_map] at hnd
    rcases List.mem_cons.mp hmem with heq | htl
    · cases heq
      simp [propLookup]
    · by_cases hk : k0 = k
      · subst hk
        exact absurd ⟨(k0, v), htl, rfl⟩ hnd.1
      · simpa [propLookup, hk] using ih hnd.2 htl

theorem nodeMatches_self {L : List String} {P : List (String × Value)} (i : Nat)
    (hnd : (P.map Prod.fst).Nodup) :
    nodeMatches L P ⟨i, L, P⟩ = true := by
  simp only [nodeMatches, Bool.and_eq_true, List.all_eq_true, List.any_eq_true,
    decide_eq_true_eq]
  refine ⟨fun l hl => ⟨l, hl, rfl⟩, fun kv hkv => ?_⟩
  exact propLookup_eq_of_mem hnd hkv

theorem matchNodes_after_create {g : Graph} {L : List String} {P : List (String × Value)}
    (hnd : (P.map Prod.fst).Nodup) :
    matchNodes (createNode g L P).1 L P
      = matchNodes g L P ++ [⟨g.nextId, L, P⟩] := by
  simp [matchNodes, createNode, List.filter_append, nodeMatches_self g.nextId hnd]

theorem relMatchesPat_self (i : Nat) (t : String) (a b : Nat) :
    relMatchesPat t a b ⟨i, t, a, b, []⟩ = true := by
  simp [relMatchesPat]

theorem matchRels_after_create (g : Graph) (t : String) (a b : Nat) :
    matchRels (createRel g t a b).1 t a b
      = matchRels g t a b ++ [⟨g.nextId, t, a, b, []⟩] := by
  simp [matchRels, createRel, List.filter_append, relMatchesPat_self]

/-- C3: MERGE is idempotent — applying the same node pattern (labels plus
properties, keys duplicate-free per the data-model invariant) or the same
bound relationship pattern twice with no intervening divergent state is a
no-op the second time, and when no entity matched beforehand the result
holds exactly one matching entity, not two.  Graph states compose across
transactions in this model, so the statement covers repeated MERGE within
one transaction and across committed transactions alike. -/
theorem merge_twice_yields_one_entity
    (g : Graph) (L : List String) (P : List (String × Value))
    (t : String) (a b : Nat)
    (hnd : (P.map Prod.fst).Nodup) :
    mergeNode (mergeNode g L P) L P = mergeNode g L P ∧
    (matchNodes g L P = [] →
      (matchNodes (mergeNode (mergeNode g L P) L P) L P).length = 1) ∧
    mergeRel (mergeRel g t a b) t a b = mergeRel g t a b ∧
    (matchRels g t a b = [] →
      (matchRels (mergeRel (mergeRel g t a b) t a b) t a b).length = 1) := by
  have hnodeE : ∀ g', matchNodes g' L P = [] → mergeNode g' L P = (createNode g' L P).1 :=
    fun g' h0 => by simp [mergeNode, h0]
  have hnodeN : ∀ g', matchNodes g' L P ≠ [] → mergeNode g' L P = g' :=
    fun g' h0 => by simp [mergeNode, List.isEmpty_iff, h0]
  have hnodeAfter : ∀ g', matchNodes g' L P = [] →
      matchNodes (mergeNode g' L P) L P = [⟨g'.nextId, L, P⟩] := by
    intro g' h0
    rw [hnodeE g' h0, matchNodes_after_create hnd, h0, List.nil_append]
  have hrelE : ∀ g', matchRels g' t a b = [] → mergeRel g' t a b = (createRel g' t a b).1 :=
    fun g' h0 => by simp [mergeRel, h0]
  have hrelN : ∀ g', matchRels g' t a b ≠ [] → mergeRel g' t a b = g' :=
    fun g' h0 => by simp [mergeRel, List.isEmpty_iff, h0]
  have hrelAfter : ∀ g', matchRels g' t a b = [] →
      matchRels (mergeRel g' t a b) t a b = [⟨g'.nextId, t, a, b, []⟩] := by
    intro g' h0
    rw [hrelE g' h0, matchRels_after_create, h0, List.nil_append]
  have hnode : mergeNode (mergeNode g L P) L P = mergeNode g L P := by
    by_cases h0 : matchNodes g L P = []
    · exact hnodeN _ (by rw [hnodeAfter g h0]; simp)
    · rw [hnodeN g h0]; exact hnodeN g h0
  have hrel : mergeRel (mergeRel g t a b) t a b = mergeRel g t a b := by
    by_cases h0 : matchRels g t a b = []
    · exact hrelN _ (by rw [hrelAfter g h0]; simp)
    · rw [hrelN g h0]; exact hrelN g h0
  refine ⟨hnode, fun h0 => ?_, hrel, fun h0 => ?_⟩
  · rw [hnode, hnodeAfter g h0]; rfl
  · rw [hrel, hrelAfter g h0]; rfl

/-- Witness for C3 at a concrete input: the pattern of the repository's
MERGE tests — node pattern (:M {key: x}) and relationship pattern
(a)-[:LINK]->(b) on a fresh graph. -/
theorem merge_twice_yields_one_entity_check :
    mergeNode (mergeNode emptyGraph ["M"] [("key", Value.str "x")]) ["M"]
        [("key", Value.str "x")]
      = mergeNode emptyGraph ["M"] [("key", Value.str "x")] ∧
    (matchNodes emptyGraph ["M"] [("key", Value.str "x")] = [] →
      (matchNodes
        (mergeNode (mergeNode emptyGraph ["M"] [("key", Value.str "x")]) ["M"]
          [("key", Value.str "x")]) ["M"] [("key", Value.str "x")]).length = 1) ∧
    mergeRel (mergeRel emptyGraph "LINK" 0 1) "LINK" 0 1
      = mergeRel emptyGraph "LINK" 0 1 ∧
    (matchRels emptyGraph "LINK" 0 1 = [] →
      (matchRels (mergeRel (mergeRel emptyGraph "LINK" 0 1) "LINK" 0 1)
        "LINK" 0 1).length = 1) :=
  merge_twice_yields_one_entity emptyGraph ["M"] [("key", Value.str "x")]
    "LINK" 0 1 (by decide)

/-- C4: when the sort key induces a total order on the dataset (no two
rows share a key), running the same query with ORDER BY key ascending and
with ORDER BY key descending produces exactly reversed row sequences of
each other. -/
theorem orderBy_desc_reverse_of_asc {α : Type} (key : α → Int) (rows : List α)
    (hnd : (rows.map key).Nodup) :
    orderByDesc key rows = (orderByAsc key rows).reverse := by
  have pa : List.Perm (orderByAsc key rows) rows := List.perm_insertionSort _ rows
  have pd : List.Perm (orderByDesc key rows) rows := List.perm_insertionSort _ rows
  have sla : (orderByAsc key rows).Sorted (keyLE key) :=
    List.sorted_insertionSort _ rows
  have sld : (orderByDesc key rows).Sorted (keyGE key) :=
    List.sorted_insertionSort _ rows
  have hnda : ((orderByAsc key rows).map key).Nodup :=
    ((pa.map key).nodup_iff).mpr hnd
  have hndd : ((orderByDesc key rows).map key).Nodup :=
    ((pd.map key).nodup_iff).mpr hnd
  have hpna : (orderByAsc key rows).Pairwise (fun x y => key x ≠ key y) :=
    (List.pairwise_map).mp hnda
  have hpnd : (orderByDesc key rows).Pairwise (fun x y => key x ≠ key y) :=
    (List.pairwise_map).mp hndd
  have slta : (orderByAsc key rows).Pairwise (fun x y => key x < key y) :=
    (sla.and hpna).imp (fun h => lt_of_le_of_ne h.1 h.2)
  have sltd : (orderByDesc key rows).Pairwise (fun x y => key y < key x) :=
    (sld.and hpnd).imp (fun h => lt_of_le_of_ne h.1 (Ne.symm h.2))
  have srev : (orderByAsc key rows).reverse.Pairwise (fun x y => key y < key x) :=
    (List.pairwise_reverse).mpr slta
  have hperm : List.Perm (orderByDesc key rows) (orderByAsc key rows).reverse :=
    pd.trans (pa.symm.trans (List.reverse_perm (orderByAsc key rows)).symm)
  exact @List.eq_of_perm_of_sorted α (fun x y => key y < key x)
    ⟨fun x y h1 h2 => absurd h2 (lt_asymm h1)⟩ _ _ hperm sltd srev

/-- Witness for C4 at a concrete input: the test dataset of distinct keys
3, 1, 2 sorted ascending is [1, 2, 3] and descending is its reverse. -/
theorem orderBy_desc_reverse_of_asc_check :
    orderByDesc (fun x => x) [3, 1, 2] = (orderByAsc (fun x => x) [3, 1, 2]).reverse :=
  orderBy_desc_reverse_of_asc (fun x => x) [3, 1, 2] (by decide)

/-- C5: SKIP s LIMIT l over an ordered sequence returns exactly the rows
at positions [s, s+l) of the full ordering — the element at result
position i is the input element at position s+i, the result length is
min l (n - s) — and the empty sequence when s ≥ n; and the combined
pipeline applies SKIP/LIMIT after ORDER BY. -/
theorem skip_limit_after_orderBy {α : Type} (s l : Nat) (rows : List α)
    (key : α → Int) (i : Nat) (hi : i < l) :
    (applySkipLimit s l rows).get? i = rows.get? (s + i) ∧
    (applySkipLimit s l rows).length = min l (rows.length - s) ∧
    (rows.length ≤ s → applySkipLimit s l rows = []) ∧
    orderSkipLimit key s l rows = applySkipLimit s l (orderByAsc key rows) := by
  refine ⟨?_, ?_, fun hs => ?_, rfl⟩
  · rw [applySkipLimit, List.get?_take hi, List.get?_drop]
  · simp [applySkipLimit]
  · simp [applySkipLimit, List.drop_eq_nil_of_le hs]

/-- Witness for C5 at a concrete input: the test's SKIP 2 LIMIT 2 over the
ordered sequence [1, 2, 3, 4, 5] — position 0 of the window is row 3. -/
theorem skip_limit_after_orderBy_check :
    (applySkipLimit 2 2 ([1, 2, 3, 4, 5] : List Int)).get? 0
      = ([1, 2, 3, 4, 5] : List Int).get? (2 + 0) ∧
    (applySkipLimit 2 2 ([1, 2, 3, 4, 5] : List Int)).length
      = min 2 (([1, 2, 3, 4, 5] : List Int).length - 2) ∧
    (([1, 2, 3, 4, 5] : List Int).length ≤ 2 →
      applySkipLimit 2 2 ([1, 2, 3, 4, 5] : List Int) = []) ∧
    orderSkipLimit (fun x => x) 2 2 ([1, 2, 3, 4, 5] : List Int)
      = applySkipLimit 2 2 (orderByAsc (fun x => x) ([1, 2, 3, 4, 5] : List Int)) :=
  skip_limit_after_orderBy 2 2 ([1, 2, 3, 4, 5] : List Int) (fun x => x) 0 (by decide)

/-- C6: for every set of stored vectors, query vector and k,
search_vector(query, k) returns at most k (node id, distance) pairs whose
distances are non-decreasing in result order (squared Euclidean distance,
which orders identically to Euclidean distance; ties break arbitrarily);
and in the concrete scenario with stored vectors a = [1,0,0], b = [0,1,0],
c = [0.9,0.1,0], search_vector([1,0,0], 3) returns node a first,
then c, then b. -/
theorem knn_at_most_k_sorted_and_example :
    (∀ (g : Graph) (q : List Rat) (k : Nat),
      (searchVector g q k).length ≤ k ∧
      (searchVector g q k).Pairwise distLE) ∧
    (searchVector gVec [1, 0, 0] 3).map Prod.fst = [1, 3, 2] := by
  constructor
  · intro g q k
    constructor
    · simpa [searchVector] using List.length_take_le k _
    · have hs : List.Sorted distLE (List.insertionSort distLE
          (g.vectors.map (fun p => (p.1, sqDist q p.2)))) :=
        List.sorted_insertionSort distLE (g.vectors.map (fun p => (p.1, sqDist q p.2)))
      have hp : (List.insertionSort distLE
          (g.vectors.map (fun p => (p.1, sqDist q p.2)))).Pairwise distLE := hs
      exact hp.sublist (List.take_sublist k _)
  · norm_num [searchVector, gVec, sqDist, distLE, List.insertionSort,
      List.orderedInsert]

theorem decodeNodes_nodeRecs (ns : List Node) :
    decodeNodes (ns.map (fun n => Record.nodeRec n.id n.labels n.props)) = ns := by
  induction ns with
  | nil => rfl
  | cons hd tl ih => simp [decodeNodes, List.filterMap_cons] at ih ⊢; exact ih

theorem decodeNodes_relRecs (rs : List Rel) :
    decodeNodes (rs.map (fun r => Record.relRec r.id r.relType r.src r.dst r.props)) = [] := by
  induction rs with
  | nil => rfl
  | cons hd tl ih => simpa [decodeNodes, List.filterMap_cons] using ih

theorem decodeNodes_vecRecs (vs : List (Nat × List Rat)) :
    decodeNodes (vs.map (fun p => Record.vecRec p.1 p.2)) = [] := by
  induction vs with
  | nil => rfl
  | cons hd tl ih => simpa [decodeNodes, List.filterMap_cons] using ih

theorem decodeRels_nodeRecs (ns : List Node) :
    decodeRels (ns.map (fun n => Record.nodeRec n.id n.labels n.props)) = [] := by
  induction ns with
  | nil => rfl
  | cons hd tl ih => simpa [decodeRels, List.filterMap_cons] using ih

theorem decodeRels_relRecs (rs : List Rel) :
    decodeRels (rs.map (fun r => Record.relRec r.id r.relType r.src r.dst r.props)) = rs := by
  induction rs with
  | nil => rfl
  | cons hd tl ih => simp [decodeRels, List.filterMap_cons] at ih ⊢; exact ih

theorem decodeRels_vecRecs (vs : List (Nat × List Rat)) :
    decodeRels (vs.map (fun p => Record.vecRec p.1 p.2)) = [] := by
  induction vs with
  | nil => rfl
  | cons hd tl ih => simpa [decodeRels, List.filterMap_cons] using ih

theorem decodeVectors_nodeRecs (ns : List Node) :
    decodeVectors (ns.map (fun n => Record.nodeRec n.id n.labels n.props)) = [] := by
  induction ns with
  | nil => rfl
  | cons hd tl ih => simpa [decodeVectors, List.filterMap_cons] using ih

theorem decodeVectors_relRecs (rs : List Rel) :
    decodeVectors (rs.map (fun r => Record.relRec r.id r.relType r.src r.dst r.props)) = [] := by
  induction rs with
  | nil => rfl
  | cons hd tl ih => simpa [decodeVectors, List.filterMap_cons] using ih

theorem decodeVectors_vecRecs (vs : List (Nat × List Rat)) :
    decodeVectors (vs.map (fun p => Record.vecRec p.1 p.2)) = vs := by
  induction vs with
  | nil => rfl
  | cons hd tl ih => simp [decodeVectors, List.filterMap_cons] at ih ⊢; exact ih

theorem decodeNodes_append (xs ys : List Record) :
    decodeNodes (xs ++ ys) = decodeNodes xs ++ decodeNodes ys :=
  List.filterMap_append xs ys _

theorem decodeRels_append (xs ys : List Record) :
    decodeRels (xs ++ ys) = decodeRels xs ++ decodeRels ys :=
  List.filterMap_append xs ys _

theorem decodeVectors_append (xs ys : List Record) :
    decodeVectors (xs ++ ys) = decodeVectors xs ++ decodeVectors ys :=
  List.filterMap_append xs ys _

theorem decodeNodes_encode (g : Graph) : decodeNodes (encodeGraph g).2 = g.nodes := by
  rw [encodeGraph, decodeNodes_append, decodeNodes_append,
    decodeNodes_nodeRecs, decodeNodes_relRecs, decodeNodes_vecRecs,
    List.append_nil, List.append_nil]

theorem decodeRels_encode (g : Graph) : decodeRels (encodeGraph g).2 = g.rels := by
  rw [encodeGraph, decodeRels_append, decodeRels_append,
    decodeRels_nodeRecs, decodeRels_relRecs, decodeRels_vecRecs,
    List.nil_append, List.append_nil]

theorem decodeVectors_encode (g : Graph) :
    decodeVectors (encodeGraph g).2 = g.vectors := by
  rw [encodeGraph, decodeVectors_append, decodeVectors_append,
    decodeVectors_nodeRecs, decodeVectors_relRecs, decodeVectors_vecRecs,
    List.nil_append, List.nil_append]

/-- C7: the persistence round-trip — closing the database (which encodes
the committed graph into the persisted record layout at the path) and then
reopening the same path reproduces an identical logical state: all
committed nodes, relationships (with their properties and labels) and
vectors are visible in the reopened handle. -/
theorem close_reopen_round_trip (db : Db) :
    (reopen (shutdown db)).graph = db.graph ∧
    (reopen (shutdown db)).isOpen = true ∧
    (reopen (shutdown db)).graph.nodes = db.graph.nodes ∧
    (reopen (shutdown db)).graph.rels = db.graph.rels ∧
    (reopen (shutdown db)).graph.vectors = db.graph.vectors := by
  have hn : (reopen (shutdown db)).graph.nodes = db.graph.nodes :=
    decodeNodes_encode db.graph
  have hr : (reopen (shutdown db)).graph.rels = db.graph.rels :=
    decodeRels_encode db.graph
  have hv : (reopen (shutdown db)).graph.vectors = db.graph.vectors :=
    decodeVectors_encode db.graph
  have hid : (reopen (shutdown db)).graph.nextId = db.graph.nextId := rfl
  have hg : (reopen (shutdown db)).graph = db.graph := by
    cases hgr : (reopen (shutdown db)).graph
    cases hdb : db.graph
    simp_all
  exact ⟨hg, rfl, hn, hr, hv⟩

/-- C8: every error raised by the engine belongs to one of the four kinds
(SyntaxError, ExecutionError, StorageError, CompatibilityError), each
deriving from the single base kind NervusError, so that catching the base
kind catches any of them; and every syntax error produced by the frontend
carries a non-empty message. -/
theorem error_taxonomy_four_kinds_base_catches :
    (∀ e : NervusError,
      e.kind = .synErr ∨ e.kind = .execErr ∨ e.kind = .storErr ∨ e.kind = .compatErr) ∧
    (∀ e : NervusError, catches .base e = true) ∧
    (∀ e : NervusError, catches (.only e.kind) e = true) ∧
    (∀ s e, parseQuery s = .error e → e.kind = .synErr ∧ 0 < e.msg.length) := by
  refine ⟨fun e => ?_, fun e => rfl, fun e => by simp [catches], fun s e h => ?_⟩
  · rcases e with ⟨k, m⟩
    cases k <;> simp
  · rw [parseQuery] at h
    by_cases hk : queryKeywords.any (fun k => strStartsWith s k)
    · rw [if_pos hk] at h
      cases h
    · rw [if_neg hk] at h
      cases h
      refine ⟨rfl, ?_⟩
      have hlen : ("parse error in query: " ++ s).length
          = "parse error in query: ".length + s.length := String.length_append _ _
      have hpos : 0 < "parse error in query: ".length := by decide
      simp only [hlen]
      omega

/-- Witness for C8 at a concrete input: the test's unparsable query text
"BLAH BLAH" fails with a SyntaxError carrying a non-empty message. -/
theorem error_taxonomy_four_kinds_base_catches_check :
    (⟨.synErr, "parse error in query: BLAH BLAH"⟩ : NervusError).kind = .synErr ∧
    0 < (⟨.synErr, "parse error in query: BLAH BLAH"⟩ : NervusError).msg.length :=
  error_taxonomy_four_kinds_base_catches.2.2.2 "BLAH BLAH"
    ⟨.synErr, "parse error in query: BLAH BLAH"⟩ (by decide)

theorem pullAll_drains (rs : List Row) (n : Nat) :
    pullAll rs.length ⟨rs, n⟩ = rs := by
  induction rs with
  | nil => rfl
  | cons hd tl ih => simp [pullAll, streamNext, ih]

/-- C9: for every query, the lazy form query_stream yields exactly the
same rows in the same order as the eager form query, and its total-count
accessor .len equals that row count and is already valid at construction,
before any pull on the stream (pulling .len times by streamNext drains
exactly the eager rows). -/
theorem stream_equals_eager_query (db : Db) (q : MatchQuery) (rows : List Row)
    (h : runQuery db q = .ok rows) :
    ∃ s : QueryStream,
      queryStream db q = .ok s ∧
      s.len = rows.length ∧
      pullAll s.len s = rows := by
  refine ⟨⟨rows, rows.length⟩, ?_, rfl, pullAll_drains rows rows.length⟩
  rw [queryStream, h]

/-- Witness for C9 at a concrete input: the test's stream over a graph
holding one :QS node — the stream agrees with the eager rows and its
length accessor reads 1 before iteration. -/
theorem stream_equals_eager_query_check :
    ∃ s : QueryStream,
      queryStream ⟨true, (createNode emptyGraph ["QS"] [("v", Value.int 1)]).1⟩
          ⟨["QS"], []⟩ = .ok s ∧
      s.len = [[("v", Value.int 1)]].length ∧
      pullAll s.len s = [[("v", Value.int 1)]] :=
  stream_equals_eager_query
    ⟨true, (createNode emptyGraph ["QS"] [("v", Value.int 1)]).1⟩
    ⟨["QS"], []⟩ [[("v", Value.int 1)]] (by decide)

end NervusDB
